import Mathlib

/-!
Verification of the SPR (Smart Predictive Ride Pooling) pool manager
(`spr-pool-manager.js`).

The manager keeps its whole state as one list of pool records (persisted as
a single JSON blob). Every operation loads the full list, locates the first
record matching a pool id, validates, mutates that record (or removes it),
and stores the full list back. We embed the state as `List Pool`, each
mutating operation as a function `... → List Pool → Result × List Pool`
(the generator returns no result object in the source, so it is just
`... → List Pool → List Pool`), and reachability from the empty collection
as an inductive predicate over these operations.

Time: the source derives pool ids from `Date.now()` and checks today's
date against a calendar that (in the source) always contains today. We
pass the clock value as a `Nat` parameter `now` and the calendar hit as a
`Bool` parameter `highDemandToday`.
-/

namespace SPR

inductive Status where
  | PENDING
  | ACCEPTED
  | CONFIRMED
deriving DecidableEq, Repr

structure Passenger where
  userId : String
  name : String
deriving DecidableEq, Repr

structure Driver where
  driverId : String
  name : String
deriving DecidableEq, Repr

/-- `const currentUser = { userId: 'student123', name: 'Priya S.' };` -/
def currentUser : Passenger := ⟨"student123", "Priya S."⟩

/-- `const currentDriver = { driverId: 'driver007', name: 'Suresh K.' };` -/
def currentDriver : Driver := ⟨"driver007", "Suresh K."⟩

/-- One pool record. `driverId`/`driverName` are `null` until a driver is
assigned; `createdBy` is absent on predictive pools. `departureTime` is kept
as an opaque string (the source stores an ISO timestamp). -/
structure Pool where
  poolId : String
  destination : String
  pickupLocation : String
  departureTime : String
  capacity : Nat
  passengers : List Passenger
  pricePerHead : Nat
  status : Status
  driverId : Option String
  driverName : Option String
  createdBy : Option String
deriving DecidableEq, Repr

/-- The `{success, message}` objects every mutating operation returns. -/
structure Result where
  success : Bool
  message : String
deriving DecidableEq, Repr

/-- Caller-supplied fields of `createPool(poolData)`. -/
structure PoolData where
  destination : String
  pickupLocation : String
  departureTime : String
deriving DecidableEq, Repr

/-- Does this passenger record carry the current user's id?
(`p.userId === currentUser.userId` in the source). -/
def isUser (q : Passenger) : Bool := q.userId == currentUser.userId

/-- Replace the first element satisfying `pred` by its image under `f`;
models JS `array.find(...)` followed by in-place mutation of the found
object. -/
def setFirst (pred : α → Bool) (f : α → α) : List α → List α
  | [] => []
  | x :: xs => if pred x then f x :: xs else x :: setFirst pred f xs

/-- Remove the first element satisfying `pred`; models
`array.splice(array.findIndex(pred), 1)`. -/
def removeFirst (pred : α → Bool) : List α → List α
  | [] => []
  | x :: xs => if pred x then xs else x :: removeFirst pred xs

/-- Destination of the canned predictive pool
(`const destination = "Tirupati Railway Station";`). -/
def predictiveDestination : String := "Tirupati Railway Station"

/-- The canned pool `generatePredictivePools` pushes. The `departureTime`
string abbreviates the 6:00 PM ISO timestamp the source computes. -/
def predictivePool (now : Nat) : Pool :=
  { poolId := "pool-" ++ toString now
    destination := predictiveDestination
    pickupLocation := "MBU Campus"
    departureTime := "18:00:00"
    capacity := 4
    passengers := []
    pricePerHead := 50
    status := Status.PENDING
    driverId := none
    driverName := none
    createdBy := none }

/-- `generatePredictivePools()`: on a high-demand day, if no PENDING pool to
the predictive destination exists, push the canned pool. -/
def generatePredictivePools (highDemandToday : Bool) (now : Nat)
    (pools : List Pool) : List Pool :=
  if highDemandToday then
    if pools.any (fun p =>
        p.destination == predictiveDestination && p.status == Status.PENDING) then
      pools
    else
      pools ++ [predictivePool now]
  else pools

/-- `createPool(poolData)`: append a fresh PENDING pool with capacity 4,
price 50, no passengers, no driver, created by the current user. -/
def createPool (now : Nat) (poolData : PoolData) (pools : List Pool) :
    Result × List Pool :=
  let newPool : Pool :=
    { poolId := "pool-" ++ toString now
      destination := poolData.destination
      pickupLocation := poolData.pickupLocation
      departureTime := poolData.departureTime
      capacity := 4
      passengers := []
      pricePerHead := 50
      status := Status.PENDING
      driverId := none
      driverName := none
      createdBy := some currentUser.userId }
  (⟨true, "Pool created"⟩, pools ++ [newPool])

/-- `joinPool(poolId)`: not-found / full / already-joined checks, then append
the current user; if the pool is now full and has a driver, CONFIRM it. -/
def joinPool (poolId : String) (pools : List Pool) : Result × List Pool :=
  match pools.find? (fun p => p.poolId == poolId) with
  | none => (⟨false, "Pool not found!"⟩, pools)
  | some pool =>
    if pool.passengers.length ≥ pool.capacity then
      (⟨false, "Sorry, this pool is already full."⟩, pools)
    else if pool.passengers.any isUser then
      (⟨false, "You have already joined this pool."⟩, pools)
    else
      let afterPush := pool.passengers ++ [currentUser]
      let nowFull := afterPush.length == pool.capacity && pool.driverId.isSome
      let updated : Pool :=
        if nowFull then
          { pool with passengers := afterPush, status := Status.CONFIRMED }
        else
          { pool with passengers := afterPush }
      let msg :=
        if nowFull then
          "Pool to " ++ pool.destination ++
            " is now full and confirmed! Your ride is scheduled."
        else "Joined the pool!"
      (⟨true, msg⟩, setFirst (fun p => p.poolId == poolId) (fun _ => updated) pools)

/-- `exitPool(poolId)`: remove the current user from the pool's passenger
list; delete the pool if it became empty, otherwise demote CONFIRMED to
ACCEPTED. -/
def exitPool (poolId : String) (pools : List Pool) : Result × List Pool :=
  match pools.find? (fun p => p.poolId == poolId) with
  | none => (⟨false, "Pool not found!"⟩, pools)
  | some pool =>
    if pool.passengers.any isUser then
      let remaining := removeFirst isUser pool.passengers
      if remaining.length == 0 then
        (⟨true, "Pool exited."⟩, removeFirst (fun p => p.poolId == poolId) pools)
      else
        let newStatus :=
          if pool.status == Status.CONFIRMED then Status.ACCEPTED else pool.status
        let updated : Pool := { pool with passengers := remaining, status := newStatus }
        (⟨true, "Pool exited."⟩,
          setFirst (fun p => p.poolId == poolId) (fun _ => updated) pools)
    else
      (⟨false, "You are not in this pool."⟩, pools)

/-- `assignDriver(poolId)`: not-found / already-accepted checks, then set the
simulated driver and status ACCEPTED, promoted to CONFIRMED if the pool is
already full. -/
def assignDriver (poolId : String) (pools : List Pool) : Result × List Pool :=
  match pools.find? (fun p => p.poolId == poolId) with
  | none => (⟨false, "Pool not found!"⟩, pools)
  | some pool =>
    if pool.driverId.isSome then
      (⟨false, "This pool has already been accepted."⟩, pools)
    else
      let accepted : Pool :=
        { pool with
            driverId := some currentDriver.driverId
            driverName := some currentDriver.name
            status := Status.ACCEPTED }
      let isFull := pool.passengers.length == pool.capacity
      let final : Pool :=
        if isFull then { accepted with status := Status.CONFIRMED } else accepted
      let msg :=
        if isFull then
          "Pool to " ++ pool.destination ++ " is now confirmed! The ride is ready."
        else
          "You have accepted the pool to " ++ pool.destination ++
            ". You will be notified when it\x27s full."
      (⟨true, msg⟩, setFirst (fun p => p.poolId == poolId) (fun _ => final) pools)

/-- `getAvailablePoolsForStudent`: pools with status PENDING or ACCEPTED. -/
def getAvailablePoolsForStudent (pools : List Pool) : List Pool :=
  pools.filter (fun p =>
    p.status == Status.PENDING || p.status == Status.ACCEPTED)

/-- `getAvailablePoolsForDriver`: PENDING pools without a driver. -/
def getAvailablePoolsForDriver (pools : List Pool) : List Pool :=
  pools.filter (fun p => p.status == Status.PENDING && !p.driverId.isSome)

/-- `getMyJoinedPool`: first pool whose passenger list contains the current
user. -/
def getMyJoinedPool (pools : List Pool) : Option Pool :=
  pools.find? (fun p => p.passengers.any isUser)

/-- One application of a public mutating operation of the manager. -/
inductive Step : List Pool → List Pool → Prop
  | create (now : Nat) (data : PoolData) (s : List Pool) :
      Step s (createPool now data s).2
  | generate (highDemandToday : Bool) (now : Nat) (s : List Pool) :
      Step s (generatePredictivePools highDemandToday now s)
  | join (pid : String) (s : List Pool) : Step s (joinPool pid s).2
  | leave (pid : String) (s : List Pool) : Step s (exitPool pid s).2
  | assign (pid : String) (s : List Pool) : Step s (assignDriver pid s).2

/-- States reachable from the empty collection by the manager's operations. -/
inductive Reachable : List Pool → Prop
  | empty : Reachable []
  | step {s t : List Pool} : Reachable s → Step s t → Reachable t

/-! ### The inductive invariant

Only the single hardcoded `currentUser` can ever join a pool, and every pool
is created with capacity 4, so a reachable pool carries at most that one
passenger (its list is `[]` or `[currentUser]`), can never fill up, and so
can never become CONFIRMED; its status is PENDING exactly while it has no
driver. -/

def PoolInv (p : Pool) : Prop :=
  p.capacity = 4 ∧
  (p.passengers = [] ∨ p.passengers = [currentUser]) ∧
  p.status ≠ Status.CONFIRMED ∧
  (p.status = Status.PENDING ↔ p.driverId = none)

def StateInv (s : List Pool) : Prop := ∀ p ∈ s, PoolInv p

/-! ### Concrete states used to exercise the theorems -/

def examplePoolData : PoolData := ⟨"Airport", "MBU Campus", "09:00:00"⟩

def examplePoolData2 : PoolData := ⟨"Railway Station", "Hostel Gate", "17:00:00"⟩

/-- The pool `createPool 0 examplePoolData` appends (spelled out). -/
def examplePool : Pool :=
  { poolId := "pool-0"
    destination := "Airport"
    pickupLocation := "MBU Campus"
    departureTime := "09:00:00"
    capacity := 4
    passengers := []
    pricePerHead := 50
    status := Status.PENDING
    driverId := none
    driverName := none
    createdBy := some "student123" }

/-- `examplePool` after the current user joined it. -/
def joinedPool : Pool := { examplePool with passengers := [currentUser] }

/-- State after `createPool 0 examplePoolData` on the empty collection. -/
def state1 : List Pool := (createPool 0 examplePoolData []).2

/-- State after additionally joining `"pool-0"`. -/
def state2 : List Pool := (joinPool "pool-0" state1).2

/-- State after create, join, create, join: the current user sits in two
pools at once. -/
def twoPoolState : List Pool :=
  (joinPool "pool-1"
    (createPool 1 examplePoolData2 (joinPool "pool-0" state1).2).2).2

/-- An (unreachable but syntactically valid) pool that is full, with a
driver assigned. -/
def fullPool : Pool :=
  { poolId := "pool-9"
    destination := "Airport"
    pickupLocation := "MBU Campus"
    departureTime := "10:00:00"
    capacity := 4
    passengers := [⟨"u1", "P1"⟩, ⟨"u2", "P2"⟩, ⟨"u3", "P3"⟩, ⟨"u4", "P4"⟩]
    pricePerHead := 50
    status := Status.ACCEPTED
    driverId := some "driver007"
    driverName := some "Suresh K."
    createdBy := none }

/-- A CONFIRMED pool whose only passenger is the current user. -/
def confirmedSoloPool : Pool :=
  { poolId := "pool-7"
    destination := "Airport"
    pickupLocation := "MBU Campus"
    departureTime := "10:00:00"
    capacity := 4
    passengers := [currentUser]
    pricePerHead := 50
    status := Status.CONFIRMED
    driverId := some "driver007"
    driverName := some "Suresh K."
    createdBy := none }

def otherPassenger : Passenger := ⟨"student456", "Rahul V."⟩

/-- A CONFIRMED pool holding the current user and one other passenger. -/
def confirmedDuoPool : Pool :=
  { poolId := "pool-8"
    destination := "Airport"
    pickupLocation := "MBU Campus"
    departureTime := "10:00:00"
    capacity := 4
    passengers := [currentUser, otherPassenger]
    pricePerHead := 50
    status := Status.CONFIRMED
    driverId := some "driver007"
    driverName := some "Suresh K."
    createdBy := none }

/-! ### Helper lemmas about `setFirst` and `removeFirst` -/

theorem setFirst_mem {pred : α → Bool} {f : α → α} {s : List α} {q : α}
    (h : q ∈ setFirst pred f s) :
    q ∈ s ∨ ∃ p, p ∈ s ∧ pred p = true ∧ q = f p := by
  induction s with
  | nil => simp [setFirst] at h
  | cons x xs ih =>
    simp only [setFirst] at h
    split at h
    · rcases List.mem_cons.mp h with h1 | h1
      · exact Or.inr ⟨x, List.mem_cons_self x xs, by assumption, h1⟩
      · exact Or.inl (List.mem_cons_of_mem _ h1)
    · rcases List.mem_cons.mp h with h1 | h1
      · exact Or.inl (h1 ▸ List.mem_cons_self x xs)
      · rcases ih h1 with h2 | ⟨p, hp, hpred, hq⟩
        · exact Or.inl (List.mem_cons_of_mem _ h2)
        · exact Or.inr ⟨p, List.mem_cons_of_mem _ hp, hpred, hq⟩

theorem removeFirst_mem {pred : α → Bool} {s : List α} {q : α}
    (h : q ∈ removeFirst pred s) : q ∈ s := by
  induction s with
  | nil => rw [removeFirst] at h; exact h
  | cons x xs ih =>
    simp only [removeFirst] at h
    split at h
    · exact List.mem_cons_of_mem _ h
    · rcases List.mem_cons.mp h with h1 | h1
      · exact h1 ▸ List.mem_cons_self x xs
      · exact List.mem_cons_of_mem _ (ih h1)

theorem removeFirst_length {pred : α → Bool} {s : List α}
    (h : s.any pred = true) :
    (removeFirst pred s).length + 1 = s.length := by
  induction s with
  | nil => simp at h
  | cons x xs ih =>
    by_cases hx : pred x = true
    · simp [removeFirst, hx]
    · simp only [List.any_cons, Bool.or_eq_true] at h
      rcases h with h | h
      · exact absurd h hx
      · simp [removeFirst, hx, ih h]

theorem find?_pred {pred : α → Bool} {s : List α} {p : α}
    (h : s.find? pred = some p) : pred p = true := by
  have hp := List.find?_some h
  exact hp

theorem find?_setFirst {pred : α → Bool} {f : α → α} {s : List α} {p : α}
    (h : s.find? pred = some p) (hf : pred (f p) = true) :
    (setFirst pred f s).find? pred = some (f p) := by
  induction s with
  | nil => simp at h
  | cons x xs ih =>
    by_cases hx : pred x = true
    · rw [List.find?_cons_of_pos _ hx] at h
      injection h with h
      subst h
      simp [setFirst, hx, List.find?_cons_of_pos _ hf]
    · rw [List.find?_cons_of_neg _ hx] at h
      simp [setFirst, hx, List.find?_cons_of_neg _ hx, ih h]

theorem stateInv_setFirst {s : List Pool} (h : StateInv s)
    {pred : Pool → Bool} {f : Pool → Pool}
    (hres : ∀ p, p ∈ s → pred p = true → PoolInv (f p)) :
    StateInv (setFirst pred f s) := by
  intro q hq
  rcases setFirst_mem hq with hq | ⟨p, hp, hpred, rfl⟩
  · exact h q hq
  · exact hres p hp hpred

/-! ### Branch equations for the operations

One equation per control-flow branch of the source, so that every proof
below follows the source's own case analysis. -/

theorem joinPool_eq_notFound {s : List Pool} {pid : String}
    (hfind : s.find? (fun p => p.poolId == pid) = none) :
    joinPool pid s = (⟨false, "Pool not found!"⟩, s) := by
  simp only [joinPool, hfind]

theorem joinPool_eq_full {s : List Pool} {pid : String} {pool : Pool}
    (hfind : s.find? (fun p => p.poolId == pid) = some pool)
    (hfull : pool.passengers.length ≥ pool.capacity) :
    joinPool pid s = (⟨false, "Sorry, this pool is already full."⟩, s) := by
  simp only [joinPool, hfind, if_pos hfull]

theorem joinPool_eq_already {s : List Pool} {pid : String} {pool : Pool}
    (hfind : s.find? (fun p => p.poolId == pid) = some pool)
    (hnotfull : ¬pool.passengers.length ≥ pool.capacity)
    (hmem : pool.passengers.any isUser = true) :
    joinPool pid s = (⟨false, "You have already joined this pool."⟩, s) := by
  simp only [joinPool, hfind, if_neg hnotfull, if_pos hmem]

theorem joinPool_eq_push {s : List Pool} {pid : String} {pool : Pool}
    (hfind : s.find? (fun p => p.poolId == pid) = some pool)
    (hnotfull : ¬pool.passengers.length ≥ pool.capacity)
    (hnotmem : ¬pool.passengers.any isUser = true) :
    joinPool pid s =
      (⟨true,
        if (pool.passengers ++ [currentUser]).length == pool.capacity
            && pool.driverId.isSome then
          "Pool to " ++ pool.destination ++
            " is now full and confirmed! Your ride is scheduled."
        else "Joined the pool!"⟩,
      setFirst (fun p => p.poolId == pid)
        (fun _ =>
          if (pool.passengers ++ [currentUser]).length == pool.capacity
              && pool.driverId.isSome then
            { pool with
                passengers := pool.passengers ++ [currentUser]
                status := Status.CONFIRMED }
          else { pool with passengers := pool.passengers ++ [currentUser] }) s) := by
  simp only [joinPool, hfind, if_neg hnotfull, if_neg hnotmem]

theorem exitPool_eq_notFound {s : List Pool} {pid : String}
    (hfind : s.find? (fun p => p.poolId == pid) = none) :
    exitPool pid s = (⟨false, "Pool not found!"⟩, s) := by
  simp only [exitPool, hfind]

theorem exitPool_eq_notMember {s : List Pool} {pid : String} {pool : Pool}
    (hfind : s.find? (fun p => p.poolId == pid) = some pool)
    (hnotmem : ¬pool.passengers.any isUser = true) :
    exitPool pid s = (⟨false, "You are not in this pool."⟩, s) := by
  simp only [exitPool, hfind, if_neg hnotmem]

theorem exitPool_eq_delete {s : List Pool} {pid : String} {pool : Pool}
    (hfind : s.find? (fun p => p.poolId == pid) = some pool)
    (hmem : pool.passengers.any isUser = true)
    (hzero : ((removeFirst isUser pool.passengers).length == 0) = true) :
    exitPool pid s =
      (⟨true, "Pool exited."⟩, removeFirst (fun p => p.poolId == pid) s) := by
  simp only [exitPool, hfind, if_pos hmem, hzero, eq_self_iff_true, if_true]

theorem exitPool_eq_update {s : List Pool} {pid : String} {pool : Pool}
    (hfind : s.find? (fun p => p.poolId == pid) = some pool)
    (hmem : pool.passengers.any isUser = true)
    (hnonzero : ((removeFirst isUser pool.passengers).length == 0) = false) :
    exitPool pid s =
      (⟨true, "Pool exited."⟩,
      setFirst (fun p => p.poolId == pid)
        (fun _ =>
          { pool with
              passengers := removeFirst isUser pool.passengers
              status :=
                if pool.status == Status.CONFIRMED then Status.ACCEPTED
                else pool.status }) s) := by
  simp only [exitPool, hfind, if_pos hmem, hnonzero, Bool.false_eq_true, if_false]

theorem assignDriver_eq_notFound {s : List Pool} {pid : String}
    (hfind : s.find? (fun p => p.poolId == pid) = none) :
    assignDriver pid s = (⟨false, "Pool not found!"⟩, s) := by
  simp only [assignDriver, hfind]

theorem assignDriver_eq_already {s : List Pool} {pid : String} {pool : Pool}
    (hfind : s.find? (fun p => p.poolId == pid) = some pool)
    (hdrv : pool.driverId.isSome = true) :
    assignDriver pid s = (⟨false, "This pool has already been accepted."⟩, s) := by
  simp only [assignDriver, hfind, if_pos hdrv]

theorem assignDriver_eq_assign {s : List Pool} {pid : String} {pool : Pool}
    (hfind : s.find? (fun p => p.poolId == pid) = some pool)
    (hdrv : ¬pool.driverId.isSome = true) :
    assignDriver pid s =
      (⟨true,
        if pool.passengers.length == pool.capacity then
          "Pool to " ++ pool.destination ++ " is now confirmed! The ride is ready."
        else
          "You have accepted the pool to " ++ pool.destination ++
            ". You will be notified when it\x27s full."⟩,
      setFirst (fun p => p.poolId == pid)
        (fun _ =>
          if pool.passengers.length == pool.capacity then
            { pool with
                driverId := some currentDriver.driverId
                driverName := some currentDriver.name
                status := Status.CONFIRMED }
          else
            { pool with
                driverId := some currentDriver.driverId
                driverName := some currentDriver.name
                status := Status.ACCEPTED }) s) := by
  simp only [assignDriver, hfind, if_neg hdrv]

/-! ### Preservation of the invariant by every operation -/

theorem stateInv_createPool {s : List Pool} (h : StateInv s)
    (now : Nat) (data : PoolData) : StateInv (createPool now data s).2 := by
  intro p hp
  rcases List.mem_append.mp hp with hp | hp
  · exact h p hp
  · rw [List.mem_singleton] at hp
    subst hp
    exact ⟨rfl, Or.inl rfl, fun hx => Status.noConfusion hx,
      ⟨fun _ => rfl, fun _ => rfl⟩⟩

theorem stateInv_generate {s : List Pool} (h : StateInv s)
    (hd : Bool) (now : Nat) : StateInv (generatePredictivePools hd now s) := by
  unfold generatePredictivePools
  split
  · split
    · exact h
    · intro p hp
      rcases List.mem_append.mp hp with hp | hp
      · exact h p hp
      · rw [List.mem_singleton] at hp
        subst hp
        exact ⟨rfl, Or.inl rfl, fun hx => Status.noConfusion hx,
          ⟨fun _ => rfl, fun _ => rfl⟩⟩
  · exact h

theorem stateInv_joinPool {s : List Pool} (h : StateInv s) (pid : String) :
    StateInv (joinPool pid s).2 := by
  cases hfind : s.find? (fun p => p.poolId == pid) with
  | none => rw [joinPool_eq_notFound hfind]; exact h
  | some pool =>
    obtain ⟨hcap, hpass, hconf, hpend⟩ := h pool (List.mem_of_find?_eq_some hfind)
    by_cases hfull : pool.passengers.length ≥ pool.capacity
    · rw [joinPool_eq_full hfind hfull]; exact h
    · by_cases hmem : pool.passengers.any isUser = true
      · rw [joinPool_eq_already hfind hfull hmem]; exact h
      · rw [joinPool_eq_push hfind hfull hmem]
        have hempty : pool.passengers = [] := by
          rcases hpass with h1 | h1
          · exact h1
          · exact absurd (by rw [h1]; rfl) hmem
        have hcond :
            ((pool.passengers ++ [currentUser]).length == pool.capacity
              && pool.driverId.isSome) = false := by
          rw [hempty, hcap]
          rfl
        apply stateInv_setFirst h
        intro p hp hpred
        simp only [hcond, Bool.false_eq_true, if_false]
        exact ⟨hcap, Or.inr (by simp [hempty]), hconf, hpend⟩

theorem stateInv_exitPool {s : List Pool} (h : StateInv s) (pid : String) :
    StateInv (exitPool pid s).2 := by
  cases hfind : s.find? (fun p => p.poolId == pid) with
  | none => rw [exitPool_eq_notFound hfind]; exact h
  | some pool =>
    obtain ⟨hcap, hpass, hconf, hpend⟩ := h pool (List.mem_of_find?_eq_some hfind)
    by_cases hmem : pool.passengers.any isUser = true
    · have hone : pool.passengers = [currentUser] := by
        rcases hpass with h1 | h1
        · rw [h1] at hmem
          exact absurd hmem (by decide)
        · exact h1
      have hzero : ((removeFirst isUser pool.passengers).length == 0) = true := by
        rw [hone]
        rfl
      rw [exitPool_eq_delete hfind hmem hzero]
      intro q hq
      exact h q (removeFirst_mem hq)
    · rw [exitPool_eq_notMember hfind hmem]; exact h

theorem stateInv_assignDriver {s : List Pool} (h : StateInv s) (pid : String) :
    StateInv (assignDriver pid s).2 := by
  cases hfind : s.find? (fun p => p.poolId == pid) with
  | none => rw [assignDriver_eq_notFound hfind]; exact h
  | some pool =>
    obtain ⟨hcap, hpass, hconf, hpend⟩ := h pool (List.mem_of_find?_eq_some hfind)
    by_cases hdrv : pool.driverId.isSome = true
    · rw [assignDriver_eq_already hfind hdrv]; exact h
    · rw [assignDriver_eq_assign hfind hdrv]
      have hnotfull : (pool.passengers.length == pool.capacity) = false := by
        rcases hpass with h1 | h1 <;> rw [h1, hcap] <;> rfl
      apply stateInv_setFirst h
      intro p hp hpred
      simp only [hnotfull, Bool.false_eq_true, if_false]
      exact ⟨hcap, hpass, fun hx => Status.noConfusion hx,
        ⟨fun hx => Status.noConfusion hx, fun hx => Option.noConfusion hx⟩⟩

theorem stateInv_step {s t : List Pool} (h : StateInv s) (hst : Step s t) :
    StateInv t := by
  cases hst with
  | create now data s => exact stateInv_createPool h now data
  | generate hd now s => exact stateInv_generate h hd now
  | join pid s => exact stateInv_joinPool h pid
  | leave pid s => exact stateInv_exitPool h pid
  | assign pid s => exact stateInv_assignDriver h pid

/-- Every reachable state satisfies the pool invariant. -/
theorem reachable_stateInv {s : List Pool} (h : Reachable s) : StateInv s := by
  induction h with
  | empty => intro p hp; simp at hp
  | step _ hst ih => exact stateInv_step ih hst

/-! ### Concrete reachable states -/

theorem state1_eq : state1 = [examplePool] := rfl

theorem state2_eq : state2 = [joinedPool] := rfl

theorem reachable_state1 : Reachable state1 :=
  Reachable.step Reachable.empty (Step.create 0 examplePoolData [])

theorem reachable_state2 : Reachable state2 :=
  Reachable.step reachable_state1 (Step.join "pool-0" state1)

theorem examplePool_mem_state1 : examplePool ∈ state1 := by
  rw [state1_eq]
  exact List.mem_singleton.mpr rfl

theorem joinedPool_mem_state2 : joinedPool ∈ state2 := by
  rw [state2_eq]
  exact List.mem_singleton.mpr rfl

/-! ### The claims -/

/-- C1: in every state reachable from the empty collection via the
manager's operations, a pool's status is CONFIRMED exactly when its
driverId is set and its passenger list is at capacity. (Both sides are in
fact always false in a reachable state: only the one hardcoded user can
join, so a capacity-4 pool never fills.) -/
theorem confirmed_iff_driver_and_full {s : List Pool} (hs : Reachable s) :
    ∀ p ∈ s,
      (p.status = Status.CONFIRMED ↔
        p.driverId ≠ none ∧ p.passengers.length = p.capacity) := by
  intro p hp
  obtain ⟨hcap, hpass, hconf, hpend⟩ := reachable_stateInv hs p hp
  constructor
  · intro hx
    exact absurd hx hconf
  · rintro ⟨hdrv, hlen⟩
    exfalso
    rcases hpass with h1 | h1 <;> rw [h1, hcap] at hlen <;> exact absurd hlen (by decide)

theorem confirmed_iff_driver_and_full_witness :
    joinedPool.status = Status.CONFIRMED ↔
      joinedPool.driverId ≠ none ∧
        joinedPool.passengers.length = joinedPool.capacity :=
  confirmed_iff_driver_and_full reachable_state2 joinedPool joinedPool_mem_state2

/-- C2: in every reachable state, every pool's passenger count is at most
its capacity. -/
theorem passengers_le_capacity {s : List Pool} (hs : Reachable s) :
    ∀ p ∈ s, p.passengers.length ≤ p.capacity := by
  intro p hp
  obtain ⟨hcap, hpass, -, -⟩ := reachable_stateInv hs p hp
  rcases hpass with h1 | h1 <;> rw [h1, hcap] <;> decide

theorem passengers_le_capacity_witness :
    joinedPool.passengers.length ≤ joinedPool.capacity :=
  passengers_le_capacity reachable_state2 joinedPool joinedPool_mem_state2

theorem generate_eq_skip {s : List Pool} {t : Nat}
    (hex : s.any (fun p =>
      p.destination == predictiveDestination && p.status == Status.PENDING) = true) :
    generatePredictivePools true t s = s := by
  simp only [generatePredictivePools, eq_self_iff_true, if_true, hex]

theorem generate_eq_push {s : List Pool} {t : Nat}
    (hex : s.any (fun p =>
      p.destination == predictiveDestination && p.status == Status.PENDING) = false) :
    generatePredictivePools true t s = s ++ [predictivePool t] := by
  simp only [generatePredictivePools, eq_self_iff_true, if_true, hex,
    Bool.false_eq_true, if_false]

/-- C3: running the predictive generator twice (second clock value may
differ) changes nothing the second time — it is idempotent — and from the
empty collection it yields exactly one pool to the predictive
destination. -/
theorem generate_idempotent (hd : Bool) (t1 t2 : Nat) (s : List Pool) :
    generatePredictivePools hd t2 (generatePredictivePools hd t1 s) =
      generatePredictivePools hd t1 s ∧
    (generatePredictivePools true t2
        (generatePredictivePools true t1 [])).countP
      (fun p => p.destination == predictiveDestination) = 1 := by
  constructor
  · cases hd with
    | false => rfl
    | true =>
      by_cases hex : s.any (fun p =>
          p.destination == predictiveDestination
            && p.status == Status.PENDING) = true
      · rw [generate_eq_skip hex, generate_eq_skip hex]
      · rw [generate_eq_push (Bool.eq_false_iff.mpr hex)]
        have hex2 : (s ++ [predictivePool t1]).any (fun p =>
            p.destination == predictiveDestination
              && p.status == Status.PENDING) = true := by
          rw [List.any_append]
          simp [predictivePool, predictiveDestination]
        rw [generate_eq_skip hex2]
  · have h1 : generatePredictivePools true t1 [] = [predictivePool t1] :=
      @generate_eq_push [] t1 rfl
    rw [h1, @generate_eq_skip [predictivePool t1] t2 (by rfl)]
    rfl

/-- C4: joining a pool whose passenger list is at capacity fails with the
Full message and returns the stored collection unchanged, in any state. -/
theorem joinPool_full_unchanged {s : List Pool} {pid : String} {pool : Pool}
    (hfind : s.find? (fun p => p.poolId == pid) = some pool)
    (hfull : pool.passengers.length = pool.capacity) :
    joinPool pid s = (⟨false, "Sorry, this pool is already full."⟩, s) :=
  joinPool_eq_full hfind (le_of_eq hfull.symm)

theorem joinPool_full_unchanged_witness :
    joinPool "pool-9" [fullPool] =
      (⟨false, "Sorry, this pool is already full."⟩, [fullPool]) :=
  joinPool_full_unchanged rfl rfl

/-- C5: if (in a reachable state) the current user is already a passenger
of the targeted pool and the pool is not at capacity, joining again fails
with the AlreadyJoined message, leaves the collection unchanged, and the
pool's passenger list holds the current user exactly once. -/
theorem joinPool_already_joined {s : List Pool} {pid : String} {pool : Pool}
    (hs : Reachable s)
    (hfind : s.find? (fun p => p.poolId == pid) = some pool)
    (hmem : pool.passengers.any isUser = true)
    (hnotfull : pool.passengers.length < pool.capacity) :
    joinPool pid s = (⟨false, "You have already joined this pool."⟩, s) ∧
    pool.passengers.countP isUser = 1 := by
  obtain ⟨-, hpass, -, -⟩ :=
    reachable_stateInv hs pool (List.mem_of_find?_eq_some hfind)
  have hone : pool.passengers = [currentUser] := by
    rcases hpass with h1 | h1
    · rw [h1] at hmem
      exact absurd hmem (by decide)
    · exact h1
  refine ⟨joinPool_eq_already hfind (not_le.mpr hnotfull) hmem, ?_⟩
  rw [hone]
  rfl

theorem joinPool_already_joined_witness :
    (joinPool "pool-0" state2 =
      (⟨false, "You have already joined this pool."⟩, state2)) ∧
    joinedPool.passengers.countP isUser = 1 :=
  joinPool_already_joined reachable_state2 (by rw [state2_eq]; rfl) rfl
    (by decide)

/-- C6 counterexample: pools are created with zero passengers and kept, so
"no pool with zero passengers is ever retained" fails: right after
`createPool` the collection holds a passenger-less pool. -/
theorem zero_passenger_pool_retained :
    Reachable [examplePool] ∧ examplePool.passengers = [] :=
  ⟨state1_eq ▸ reachable_state1, rfl⟩

/-- C6 (amended): when the current user is the only passenger of the
targeted pool, `exitPool` succeeds and deletes that pool from the
collection (the collection shrinks by exactly one record); `exitPool`
itself never retains a pool it has emptied. Pools with zero passengers do
occur — `createPool` and the generator retain freshly created empty
pools. -/
theorem exitPool_sole_passenger {s : List Pool} {pid : String} {pool : Pool}
    (hfind : s.find? (fun p => p.poolId == pid) = some pool)
    (honly : pool.passengers = [currentUser]) :
    exitPool pid s =
      (⟨true, "Pool exited."⟩, removeFirst (fun p => p.poolId == pid) s) ∧
    (removeFirst (fun p => p.poolId == pid) s).length + 1 = s.length := by
  have hmem : pool.passengers.any isUser = true := by
    rw [honly]
    rfl
  have hzero : ((removeFirst isUser pool.passengers).length == 0) = true := by
    rw [honly]
    rfl
  refine ⟨exitPool_eq_delete hfind hmem hzero, ?_⟩
  exact removeFirst_length (List.any_eq_true.mpr
    ⟨pool, List.mem_of_find?_eq_some hfind,
      @find?_pred Pool (fun p => p.poolId == pid) s pool hfind⟩)

theorem exitPool_sole_passenger_witness :
    (exitPool "pool-0" state2 =
      (⟨true, "Pool exited."⟩,
        removeFirst (fun p => p.poolId == "pool-0") state2)) ∧
    (removeFirst (fun p => p.poolId == "pool-0") state2).length + 1 =
      state2.length :=
  exitPool_sole_passenger (by rw [state2_eq]; rfl) rfl

/-- C7 counterexample: in a state where a CONFIRMED pool's only passenger
is the current user, `exitPool` deletes the pool instead of keeping it with
status demoted to ACCEPTED. -/
theorem exitPool_confirmed_counterexample :
    confirmedSoloPool.status = Status.CONFIRMED ∧
    confirmedSoloPool.passengers.any isUser = true ∧
    (exitPool "pool-7" [confirmedSoloPool]).2 = [] :=
  ⟨rfl, rfl, rfl⟩

/-- C7 (amended): when the targeted pool is CONFIRMED, the current user is
one of its passengers, and at least one other passenger remains (the list
has length ≥ 2), `exitPool` succeeds and the pool stays in the collection
with status demoted to ACCEPTED and its driverId and driverName
untouched. If the user is the sole passenger, the pool is deleted
instead. -/
theorem exitPool_confirmed_demotes {s : List Pool} {pid : String} {pool : Pool}
    (hfind : s.find? (fun p => p.poolId == pid) = some pool)
    (hconf : pool.status = Status.CONFIRMED)
    (hmem : pool.passengers.any isUser = true)
    (htwo : 2 ≤ pool.passengers.length) :
    (exitPool pid s).1 = ⟨true, "Pool exited."⟩ ∧
    ((exitPool pid s).2).find? (fun p => p.poolId == pid) =
      some { pool with
              passengers := removeFirst isUser pool.passengers
              status := Status.ACCEPTED } := by
  have hlen : (removeFirst isUser pool.passengers).length + 1 =
      pool.passengers.length := removeFirst_length hmem
  have hnonzero : ((removeFirst isUser pool.passengers).length == 0) = false := by
    cases hrem : (removeFirst isUser pool.passengers).length with
    | zero => rw [hrem] at hlen; omega
    | succ n => rfl
  rw [exitPool_eq_update hfind hmem hnonzero]
  have hstat : (if pool.status == Status.CONFIRMED then Status.ACCEPTED
      else pool.status) = Status.ACCEPTED := by
    rw [hconf]
    rfl
  rw [hstat]
  exact ⟨rfl, find?_setFirst hfind
    (@find?_pred Pool (fun p => p.poolId == pid) s pool hfind)⟩

theorem exitPool_confirmed_demotes_witness :
    ((exitPool "pool-8" [confirmedDuoPool]).1 = ⟨true, "Pool exited."⟩) ∧
    ((exitPool "pool-8" [confirmedDuoPool]).2).find?
        (fun p => p.poolId == "pool-8") =
      some { confirmedDuoPool with
              passengers := removeFirst isUser confirmedDuoPool.passengers
              status := Status.ACCEPTED } :=
  exitPool_confirmed_demotes rfl rfl rfl (by decide)

/-- C8: `assignDriver` fails with NotFound when no pool matches, fails with
AlreadyAccepted when the matched pool already has a driver, and otherwise
stores the simulated driver's id and name on the pool with status ACCEPTED,
promoted to CONFIRMED when the passenger list is already at capacity. -/
theorem assignDriver_spec (s : List Pool) (pid : String) :
    (s.find? (fun p => p.poolId == pid) = none →
      assignDriver pid s = (⟨false, "Pool not found!"⟩, s)) ∧
    (∀ pool, s.find? (fun p => p.poolId == pid) = some pool →
      pool.driverId.isSome = true →
      assignDriver pid s = (⟨false, "This pool has already been accepted."⟩, s)) ∧
    (∀ pool, s.find? (fun p => p.poolId == pid) = some pool →
      pool.driverId = none →
      (assignDriver pid s).1.success = true ∧
      ((assignDriver pid s).2).find? (fun p => p.poolId == pid) =
        some { pool with
                driverId := some currentDriver.driverId
                driverName := some currentDriver.name
                status :=
                  if pool.passengers.length == pool.capacity then
                    Status.CONFIRMED
                  else Status.ACCEPTED }) := by
  refine ⟨fun hfind => assignDriver_eq_notFound hfind,
    fun pool hfind hdrv => assignDriver_eq_already hfind hdrv,
    fun pool hfind hdrv => ?_⟩
  have hno : ¬pool.driverId.isSome = true := by
    rw [hdrv]
    exact Bool.false_ne_true
  rw [assignDriver_eq_assign hfind hno]
  have hrec : (if pool.passengers.length == pool.capacity then
      { pool with
          driverId := some currentDriver.driverId
          driverName := some currentDriver.name
          status := Status.CONFIRMED }
    else
      { pool with
          driverId := some currentDriver.driverId
          driverName := some currentDriver.name
          status := Status.ACCEPTED }) =
      { pool with
          driverId := some currentDriver.driverId
          driverName := some currentDriver.name
          status :=
            if pool.passengers.length == pool.capacity then Status.CONFIRMED
            else Status.ACCEPTED } := by
    by_cases hfull : (pool.passengers.length == pool.capacity) = true
    · rw [if_pos hfull, if_pos hfull]
    · rw [if_neg hfull, if_neg hfull]
  rw [hrec]
  exact ⟨rfl, find?_setFirst hfind
    (@find?_pred Pool (fun p => p.poolId == pid) s pool hfind)⟩

theorem assignDriver_spec_witness :
    (assignDriver "pool-x" [] = (⟨false, "Pool not found!"⟩, ([] : List Pool))) ∧
    (assignDriver "pool-9" [fullPool] =
      (⟨false, "This pool has already been accepted."⟩, [fullPool])) ∧
    ((assignDriver "pool-0" [examplePool]).1.success = true ∧
      ((assignDriver "pool-0" [examplePool]).2).find?
          (fun p => p.poolId == "pool-0") =
        some { examplePool with
                driverId := some currentDriver.driverId
                driverName := some currentDriver.name
                status :=
                  if examplePool.passengers.length == examplePool.capacity then
                    Status.CONFIRMED
                  else Status.ACCEPTED }) :=
  ⟨(assignDriver_spec [] "pool-x").1 rfl,
    (assignDriver_spec [fullPool] "pool-9").2.1 fullPool rfl rfl,
    (assignDriver_spec [examplePool] "pool-0").2.2 examplePool rfl rfl⟩

/-- C9 counterexample: a reachable state (create, join, create, join) in
which the current user is a passenger of two pools at once — `joinPool`
only checks membership in the targeted pool, not in others. -/
theorem user_in_two_pools :
    Reachable twoPoolState ∧
    twoPoolState.countP (fun p => p.passengers.any isUser) = 2 := by
  constructor
  · exact Reachable.step
      (Reachable.step
        (Reachable.step
          (Reachable.step Reachable.empty (Step.create 0 examplePoolData []))
          (Step.join "pool-0" state1))
        (Step.create 1 examplePoolData2 (joinPool "pool-0" state1).2))
      (Step.join "pool-1"
        (createPool 1 examplePoolData2 (joinPool "pool-0" state1).2).2)
  · rfl

/-- C9 (amended): the current user can be a passenger of several pools at
once; `getMyJoinedPool` returns the first pool in storage order whose
passenger list contains the current user, and returns none exactly when no
stored pool contains the user. -/
theorem getMyJoinedPool_first_match (pools : List Pool) :
    (∀ q, getMyJoinedPool pools = some q →
      q ∈ pools ∧ q.passengers.any isUser = true) ∧
    (getMyJoinedPool pools = none →
      ∀ p ∈ pools, p.passengers.any isUser = false) := by
  constructor
  · intro q hq
    exact ⟨List.mem_of_find?_eq_some hq,
      @find?_pred Pool (fun p => p.passengers.any isUser) pools q hq⟩
  · intro hq p hp
    have hnot := List.find?_eq_none.mp hq p hp
    cases hb : p.passengers.any isUser with
    | true => exact absurd hb hnot
    | false => rfl

theorem getMyJoinedPool_first_match_witness :
    joinedPool ∈ twoPoolState ∧ joinedPool.passengers.any isUser = true :=
  (getMyJoinedPool_first_match twoPoolState).1 joinedPool rfl

/-- C10: in every reachable state a PENDING pool has no driver (a pool
with a driver is ACCEPTED or CONFIRMED), so the driver-facing query's
driverless check is redundant: filtering on PENDING-and-driverless equals
filtering on PENDING alone. -/
theorem pending_implies_driverless {s : List Pool} (hs : Reachable s) :
    (∀ p ∈ s, p.status = Status.PENDING → p.driverId = none) ∧
    getAvailablePoolsForDriver s =
      s.filter (fun p => p.status == Status.PENDING) := by
  have hinv := reachable_stateInv hs
  constructor
  · intro p hp hpend
    exact ((hinv p hp).2.2.2).mp hpend
  · apply List.filter_congr
    intro p hp
    obtain ⟨-, -, -, hpend⟩ := hinv p hp
    cases hst : (p.status == Status.PENDING) with
    | false => rfl
    | true =>
      have hdrv : p.driverId = none := hpend.mp (eq_of_beq hst)
      rw [hdrv]
      rfl

theorem pending_implies_driverless_witness :
    examplePool.driverId = none ∧
    getAvailablePoolsForDriver state1 =
      state1.filter (fun p => p.status == Status.PENDING) :=
  ⟨(pending_implies_driverless reachable_state1).1 examplePool
      examplePool_mem_state1 rfl,
    (pending_implies_driverless reachable_state1).2⟩

end SPR
